import Mathlib

/-!
Verification development for the WASI AI-agent gateway component
(`src/lib.rs`).  The component performs poll-driven TCP and HTTP I/O;
here its pure control structure is shallowly embedded: bytes are `Nat`
(values < 256), each stream-read operation is abstracted as an oracle
producing a `ReadOutcome` per attempt, and the host HTTP/DNS facilities
are oracles passed as function arguments.  Strings handled by the Rust
code are modelled as `List Char` (via `String.data` for literals) or as
UTF-8 byte lists (`List Nat`) where the code works byte-wise; the Rust
`String::from_utf8_lossy` conversion is the identity on the ASCII inputs
all quantified statements restrict to.
-/

namespace AIAgent

/-- Outcome of one `streams::InputStream::read` call, as matched by the
source: a successful chunk (possibly empty), `StreamError::Closed`, or
`StreamError::LastOperationFailed`. -/
inductive ReadOutcome where
  | ok (chunk : List Nat)
  | closed
  | failed
deriving DecidableEq

/-- The poll-gated read loop of `tcp_send_message` (src/lib.rs:360-374):
`for _ in 0..20 { poll; read(4*1024) }`; an empty chunk or `Closed` breaks,
a chunk is appended and the loop breaks once 4096 bytes are accumulated,
`LastOperationFailed` continues (consuming the iteration).  `reads i` is
the outcome of the read attempt of iteration `i`; the result pairs the
accumulated bytes with the number of poll-read cycles performed. -/
def tcpReadLoopAux (reads : Nat → ReadOutcome) :
    Nat → Nat → List Nat → Nat → List Nat × Nat
  | _, 0, acc, used => (acc, used)
  | i, fuel + 1, acc, used =>
    match reads i with
    | .ok chunk =>
      if chunk.isEmpty then (acc, used + 1)
      else
        let acc2 := acc ++ chunk
        if 4096 ≤ acc2.length then (acc2, used + 1)
        else tcpReadLoopAux reads (i + 1) fuel acc2 (used + 1)
    | .closed => (acc, used + 1)
    | .failed => tcpReadLoopAux reads (i + 1) fuel acc (used + 1)

/-- The read phase of `tcp_send_message`: the loop starts with an empty
buffer and a budget of 20 poll-read cycles. -/
def tcp_send_message_read (reads : Nat → ReadOutcome) : List Nat × Nat :=
  tcpReadLoopAux reads 0 20 [] 0

/-- `String::from_utf8_lossy(&body).trim_end_matches('\0')`, at byte
level: drop the trailing `0` bytes (trailing NUL bytes are exactly the
trailing NUL characters of the lossy decoding). -/
def trimTrailingNulls (bs : List Nat) : List Nat :=
  (bs.reverse.dropWhile (fun b => b = 0)).reverse

/-- The value `tcp_send_message` returns from its read phase
(src/lib.rs:375). -/
def tcp_send_message_result (reads : Nat → ReadOutcome) : List Nat :=
  trimTrailingNulls (tcp_send_message_read reads).1

/-- The bulk read loop (`loop { read(32*1024) }`) of
`tcp_get_example_dot_com` (src/lib.rs:307-314), `tcp_get_host_port`
(src/lib.rs:437-444) and the HTTP body drains: an empty chunk, `Closed`
or any other error breaks; otherwise the chunk is appended.  The loop is
driven by the finite trace of outcomes the stream yields. -/
def bulkReadLoop : List ReadOutcome → List Nat → List Nat
  | [], acc => acc
  | o :: rest, acc =>
    match o with
    | .ok chunk => if chunk.isEmpty then acc else bulkReadLoop rest (acc ++ chunk)
    | .closed => acc
    | .failed => acc

/-- `tcp_get_host_port`'s read-to-end phase: the accumulated bytes are
returned as a success (`Ok(...)`, src/lib.rs:445) — read errors are not
propagated. -/
def tcp_get_host_port_read (outs : List ReadOutcome) : Except String (List Nat) :=
  Except.ok (bulkReadLoop outs [])

/-! ### Hostname parsing and DNS fast path -/

/-- Rust `str::split('.')` on a character list: every `'.'` separates
fields, so `""` yields `[""]`, a leading/trailing/double dot yields an
empty field. -/
def splitDots : List Char → List (List Char)
  | [] => [[]]
  | c :: rest =>
    if c = '.' then [] :: splitDots rest
    else
      match splitDots rest with
      | [] => [[c]]
      | p :: ps => (c :: p) :: ps

/-- The sign handling of Rust `u8::from_str`: an optional leading `'+'`
is skipped (a `'-'` is not accepted for unsigned types — it is left in
place and later fails the digit test). -/
def stripPlusSign : List Char → List Char
  | '+' :: rest => rest
  | p => p

/-- Rust `str::parse::<u8>()` (`u8::from_str`): an optional leading `'+'`
sign, then a nonempty run of ASCII decimal digits; values above 255
overflow and fail. -/
def parseU8 (p : List Char) : Option Nat :=
  let digits := stripPlusSign p
  if digits = [] then none
  else if digits.all (fun c => c.isDigit) then
    let v := digits.foldl (fun a c => a * 10 + (c.toNat - 48)) 0
    if v ≤ 255 then some v else none
  else none

/-- `parse_ipv4` (src/lib.rs:501-509): split on `'.'`, require exactly
four fields, parse each as `u8`. -/
def parse_ipv4 (s : List Char) : Option (Nat × Nat × Nat × Nat) :=
  match splitDots s with
  | [p1, p2, p3, p4] =>
    match parseU8 p1, parseU8 p2, parseU8 p3, parseU8 p4 with
    | some a, some b, some c, some d => some (a, b, c, d)
    | _, _, _, _ => none
  | _ => none

/-- A resolved network address (`net::IpAddress`). -/
inductive IpAddress where
  | ipv4 (addr : Nat × Nat × Nat × Nat)
  | ipv6 (addr : List Nat)
deriving DecidableEq

/-- The host-resolution step of `tcp_get_host_port` (src/lib.rs:383-396):
the IPv4 literal fast path skips DNS entirely; otherwise `try_dns_resolve`
(abstracted as the oracle `dns`) runs, with the hard-coded fallback for
`example.com` on resolver failure.  The boolean records whether resolution
was invoked. -/
def resolveHost (dns : List Char → Except (List Char) IpAddress)
    (host : List Char) : Except (List Char) IpAddress × Bool :=
  match parse_ipv4 host with
  | some v4 => (Except.ok (IpAddress.ipv4 v4), false)
  | none =>
    match dns host with
    | Except.ok ip => (Except.ok ip, true)
    | Except.error e =>
      if host = ("example.com").data then
        (Except.ok (IpAddress.ipv4 (93, 184, 216, 34)), true)
      else
        (Except.error
          (("dns failure for host '").data ++ host ++ ("': ").data ++ e), true)

/-! ### Query-string and form parsing (byte level) -/

/-- ASCII bytes of a string literal (the byte-level view the Rust code
operates on; exact for the ASCII literals used here). -/
def strBytes (s : String) : List Nat :=
  s.data.map Char.toNat

/-- `hex` (src/lib.rs:492-498): value of one ASCII hex digit byte. -/
def hexVal (c : Nat) : Option Nat :=
  if 48 ≤ c ∧ c ≤ 57 then some (c - 48)
  else if 97 ≤ c ∧ c ≤ 102 then some (10 + c - 97)
  else if 65 ≤ c ∧ c ≤ 70 then some (10 + c - 65)
  else none

/-- `percent_decode` (src/lib.rs:471-490) on the UTF-8 bytes: a `'%'`
(37) followed by two bytes both valid hex digits decodes to one byte and
skips three positions; otherwise the current byte is copied verbatim and
only one position is consumed. -/
def percentDecode : List Nat → List Nat
  | 37 :: h1 :: h2 :: rest =>
    match hexVal h1, hexVal h2 with
    | some a, some b => (a * 16 + b) :: percentDecode rest
    | _, _ => 37 :: percentDecode (h1 :: h2 :: rest)
  | b :: rest => b :: percentDecode rest
  | [] => []

/-- Rust `str::split(sep)`: all fields, empty ones included. -/
def splitOnByte (sep : Nat) : List Nat → List (List Nat)
  | [] => [[]]
  | b :: rest =>
    if b = sep then [] :: splitOnByte sep rest
    else
      match splitOnByte sep rest with
      | [] => [[b]]
      | p :: ps => (b :: p) :: ps

/-- Rust `str::splitn(2, sep)` with both pieces defaulted to `""`: the
part before the first `sep` and the part after it (empty when there is
no `sep`, which coincides with `unwrap_or("")` on the missing piece). -/
def splitOnceByte (sep : Nat) : List Nat → List Nat × List Nat
  | [] => ([], [])
  | b :: rest =>
    if b = sep then ([], rest)
    else
      let p := splitOnceByte sep rest
      (b :: p.1, p.2)

/-- `HashMap::insert`: the new binding replaces any previous one for the
same key. -/
def mapInsert (m : List (List Nat × List Nat)) (k v : List Nat) :
    List (List Nat × List Nat) :=
  (k, v) :: m.filter (fun p => p.1 ≠ k)

/-- `HashMap::get(k).cloned()`. -/
def mapGet (m : List (List Nat × List Nat)) (k : List Nat) : Option (List Nat) :=
  (m.find? (fun p => p.1 = k)).map (fun p => p.2)

/-- `parse_query_params` (src/lib.rs:457-469): split on `'&'` (38), skip
empty pairs, split each pair once on `'='` (61), skip empty keys, insert
the percent-decoded key/value. -/
def parse_query_params (qs : List Nat) : List (List Nat × List Nat) :=
  (splitOnByte 38 qs).foldl
    (fun m pair =>
      if pair = [] then m
      else
        let kv := splitOnceByte 61 pair
        if kv.1 = [] then m
        else mapInsert m (percentDecode kv.1) (percentDecode kv.2))
    []

/-! ### URL parsing and the HTTP client entry points -/

/-- Rust `str::strip_prefix` on character lists. -/
def stripPrefixL : List Char → List Char → Option (List Char)
  | [], s => some s
  | _ :: _, [] => none
  | p :: ps, c :: cs => if c = p then stripPrefixL ps cs else none

/-- `http::Scheme` as used by the client. -/
inductive UrlScheme where
  | https
  | http
deriving DecidableEq

/-- The authority/path split shared by the three clients
(src/lib.rs:210-212, 556-558, 639-641): `rest.splitn(2, '/')`, authority
is everything before the first `'/'`, path is `"/"` followed by the
remainder (just `"/"` when absent). -/
def splitAuthorityPath (rest : List Char) : List Char × List Char :=
  let authority := rest.takeWhile (fun c => c ≠ '/')
  let after :=
    match rest.dropWhile (fun c => c ≠ '/') with
    | [] => []
    | _ :: t => t
  (authority, '/' :: after)

/-- The URL-parsing prologue shared by `http_post_text`
(src/lib.rs:203-212), `http_post_json` (src/lib.rs:549-558) and
`http_get_text` (src/lib.rs:632-641): `https://` first, then `http://`,
anything else is the `unsupported scheme` error. -/
def parseUrl (url : List Char) :
    Except (List Char) (UrlScheme × List Char × List Char) :=
  match stripPrefixL ("https://").data url with
  | some r => Except.ok (UrlScheme.https, splitAuthorityPath r)
  | none =>
    match stripPrefixL ("http://").data url with
    | some r => Except.ok (UrlScheme.http, splitAuthorityPath r)
    | none => Except.error ("unsupported scheme").data

/-- Status classification of `http_get_text` (src/lib.rs:671-675):
2xx succeeds with the drained body, anything else is
`"HTTP {status}: {body}"`. -/
def classifyGetText (status : Nat) (bodyText : List Char) :
    Except (List Char) (List Char) :=
  if 200 ≤ status ∧ status < 300 then Except.ok bodyText
  else
    Except.error
      (("HTTP ").data ++ (Nat.repr status).data ++ (": ").data ++ bodyText)

/-- Status classification of `http_post_json` (src/lib.rs:613-617):
2xx succeeds with the drained body, anything else is
`"OpenAI HTTP {status}: {body}"`. -/
def classifyPostJson (status : Nat) (bodyText : List Char) :
    Except (List Char) (List Char) :=
  if 200 ≤ status ∧ status < 300 then Except.ok bodyText
  else
    Except.error
      (("OpenAI HTTP ").data ++ (Nat.repr status).data ++ (": ").data ++ bodyText)

/-- `http_get_text` with the dispatch/drain abstracted: the oracle `fx`
yields the status and drained body of the response (or a transport-level
error text).  The boolean records whether a request was dispatched. -/
def http_get_text
    (fx : UrlScheme → List Char → List Char → Except (List Char) (Nat × List Char))
    (url : List Char) : Except (List Char) (List Char) × Bool :=
  match parseUrl url with
  | Except.error e => (Except.error e, false)
  | Except.ok (sch, auth, path) =>
    match fx sch auth path with
    | Except.error e => (Except.error e, true)
    | Except.ok sb => (classifyGetText sb.1 sb.2, true)

/-- `http_post_json` with dispatch/drain abstracted, as `http_get_text`. -/
def http_post_json
    (fx : UrlScheme → List Char → List Char → Except (List Char) (Nat × List Char))
    (url _jsonBody _apiKey : List Char) :
    Except (List Char) (List Char) × Bool :=
  match parseUrl url with
  | Except.error e => (Except.error e, false)
  | Except.ok (sch, auth, path) =>
    match fx sch auth path with
    | Except.error e => (Except.error e, true)
    | Except.ok sb => (classifyPostJson sb.1 sb.2, true)

/-- `http_post_text` with dispatch abstracted: it only reports success or
an error text, never a body (src/lib.rs:241-245). -/
def http_post_text
    (fx : UrlScheme → List Char → List Char → Except (List Char) Unit)
    (url _body _contentType : List Char) : Except (List Char) Unit × Bool :=
  match parseUrl url with
  | Except.error e => (Except.error e, false)
  | Except.ok (sch, auth, path) => (fx sch auth path, true)

/-! ### Router pieces -/

/-- ASCII view of a decoded byte list (identity with `strBytes` on the
ASCII range). -/
def bytesToChars (bs : List Nat) : List Char :=
  bs.map Char.ofNat

/-- Outcome of the `/slack/command` route. -/
structure SlackResult where
  response : String
  didPost : Bool
deriving DecidableEq

/-- The `/slack/command` branch of the router (src/lib.rs:58-76): parse
the form body, extract `text` and `response_url` (defaulting to empty),
build the reply via `call_openai` (oracle `openai`) or the echo fallback,
fire the best-effort callback POST (oracle `post`, result discarded) only
when `response_url` is nonempty, and answer `"ack"` unconditionally. -/
def handleSlackCommand
    (openai : List Char → Except (List Char) (List Char))
    (post : List Char → List Char → Except (List Char) Unit)
    (bodyText : List Nat) : SlackResult :=
  let form := parse_query_params bodyText
  let text := bytesToChars ((mapGet form (strBytes "text")).getD [])
  let responseUrl := bytesToChars ((mapGet form (strBytes "response_url")).getD [])
  let reply :=
    match openai text with
    | Except.ok r => r
    | Except.error e =>
      ("You said: ").data ++ text ++ (" (AI unavailable: ").data ++ e ++ (")").data
  if responseUrl.isEmpty then
    { response := "ack", didPost := false }
  else
    let _ := post responseUrl reply
    { response := "ack", didPost := true }

/-- The `/debug/httpget` branch of the router (src/lib.rs:94-104): the
probe URL defaults to `https://httpbin.org/get`, is overridden by the
`url` query parameter, and the `http_get_text` outcome is formatted into
the narrative. -/
def debugHttpGetRoute
    (fx : UrlScheme → List Char → List Char → Except (List Char) (Nat × List Char))
    (query : Option (List Nat)) : List Char :=
  let url :=
    match query with
    | some qs =>
      match mapGet (parse_query_params qs) (strBytes "url") with
      | some u => bytesToChars u
      | none => ("https://httpbin.org/get").data
    | none => ("https://httpbin.org/get").data
  match (http_get_text fx url).1 with
  | Except.ok t => ("GET ").data ++ url ++ ("\n\n").data ++ t
  | Except.error e => ("GET ").data ++ url ++ (" failed: ").data ++ e

/-! ### Configuration and the OpenAI probe -/

/-- `get_env_var` (src/lib.rs:542-544): `env::var(name).ok()` (the oracle
`env`) filtered to nonempty values. -/
def get_env_var (env : String → Option String) (name : String) : Option String :=
  (env name).filter (fun s => !s.isEmpty)

/-- `call_openai` (src/lib.rs:512-524) up to the credential check: an
absent key fails with `OPENAI_API_KEY not set` before anything is sent;
otherwise the POST to the completions endpoint and the parsing of its
response are abstracted as the oracle `fx` applied to the configured
model and the user text.  The boolean records whether the HTTP request
(carrying the credential) was dispatched. -/
def call_openai (env : String → Option String)
    (fx : String → String → Except String String)
    (userText : String) : Except String String × Bool :=
  let api_key := (get_env_var env "OPENAI_API_KEY").getD ""
  let model := (get_env_var env "LLM_MODEL").getD "gpt-4o-mini"
  if api_key.isEmpty then (Except.error "OPENAI_API_KEY not set", false)
  else (fx model userText, true)

/-- The credential string the `/debug/openai` route works with
(src/lib.rs:106): `get_env_var("OPENAI_API_KEY").unwrap_or("MISSING")`. -/
def debugOpenaiApiKeyShown (env : String → Option String) : String :=
  (get_env_var env "OPENAI_API_KEY").getD "MISSING"

/-- The credential excerpt of the `/debug/openai` narrative
(src/lib.rs:116,122): the first 10 bytes when the key is longer than 10,
the whole key otherwise. -/
def keyExcerpt (apiKey : List Char) : List Char :=
  if apiKey.length > 10 then apiKey.take 10 else apiKey

/-- The `/debug/openai` narrative (src/lib.rs:112-125), for a probe
outcome delivered by `http_post_json`. -/
def debugOpenaiNarrative (model apiKey : List Char)
    (outcome : Except (List Char) (List Char)) : List Char :=
  match outcome with
  | Except.ok responseBody =>
    ("OpenAI API Test Success:\nModel: ").data ++ model ++
      ("\nAPI Key: ").data ++ keyExcerpt apiKey ++
      ("...\nResponse: ").data ++ responseBody
  | Except.error e =>
    ("OpenAI API Test Failed:\nModel: ").data ++ model ++
      ("\nAPI Key: ").data ++ keyExcerpt apiKey ++
      ("...\nError: ").data ++ e

/-! ### Lemmas about the poll-gated read loop -/

theorem tcpReadLoopAux_step_failed (reads : Nat → ReadOutcome)
    (i fuel : Nat) (acc : List Nat) (used : Nat)
    (h : reads i = ReadOutcome.failed) :
    tcpReadLoopAux reads i (fuel + 1) acc used =
      tcpReadLoopAux reads (i + 1) fuel acc (used + 1) := by
  simp [tcpReadLoopAux, h]

theorem tcpReadLoopAux_step_empty (reads : Nat → ReadOutcome)
    (i fuel : Nat) (acc : List Nat) (used : Nat) (chunk : List Nat)
    (h : reads i = ReadOutcome.ok chunk) (hne : chunk.isEmpty = true) :
    tcpReadLoopAux reads i (fuel + 1) acc used = (acc, used + 1) := by
  simp only [tcpReadLoopAux, h]
  rw [if_pos hne]

theorem tcpReadLoopAux_step_closed (reads : Nat → ReadOutcome)
    (i fuel : Nat) (acc : List Nat) (used : Nat)
    (h : reads i = ReadOutcome.closed) :
    tcpReadLoopAux reads i (fuel + 1) acc used = (acc, used + 1) := by
  simp [tcpReadLoopAux, h]

theorem tcpReadLoopAux_step_full (reads : Nat → ReadOutcome)
    (i fuel : Nat) (acc : List Nat) (used : Nat) (chunk : List Nat)
    (h : reads i = ReadOutcome.ok chunk) (hne : chunk.isEmpty = false)
    (hlen : 4096 ≤ (acc ++ chunk).length) :
    tcpReadLoopAux reads i (fuel + 1) acc used = (acc ++ chunk, used + 1) := by
  simp only [tcpReadLoopAux, h]
  rw [if_neg (by simp [hne]), if_pos hlen]

theorem tcpReadLoopAux_step_more (reads : Nat → ReadOutcome)
    (i fuel : Nat) (acc : List Nat) (used : Nat) (chunk : List Nat)
    (h : reads i = ReadOutcome.ok chunk) (hne : chunk.isEmpty = false)
    (hlen : ¬ 4096 ≤ (acc ++ chunk).length) :
    tcpReadLoopAux reads i (fuel + 1) acc used =
      tcpReadLoopAux reads (i + 1) fuel (acc ++ chunk) (used + 1) := by
  simp only [tcpReadLoopAux, h]
  rw [if_neg (by simp [hne]), if_neg hlen]

theorem tcpReadLoopAux_cycles_le (reads : Nat → ReadOutcome) :
    ∀ (fuel i : Nat) (acc : List Nat) (used : Nat),
      (tcpReadLoopAux reads i fuel acc used).2 ≤ used + fuel := by
  intro fuel
  induction fuel with
  | zero => intro i acc used; simp [tcpReadLoopAux]
  | succ n ih =>
    intro i acc used
    cases h : reads i with
    | ok chunk =>
      cases hne : chunk.isEmpty with
      | true =>
        rw [tcpReadLoopAux_step_empty reads i n acc used chunk h hne]
        omega
      | false =>
        by_cases hlen : 4096 ≤ (acc ++ chunk).length
        · rw [tcpReadLoopAux_step_full reads i n acc used chunk h hne hlen]
          omega
        · rw [tcpReadLoopAux_step_more reads i n acc used chunk h hne hlen]
          have := ih (i + 1) (acc ++ chunk) (used + 1)
          omega
    | closed =>
      rw [tcpReadLoopAux_step_closed reads i n acc used h]
      omega
    | failed =>
      rw [tcpReadLoopAux_step_failed reads i n acc used h]
      have := ih (i + 1) acc (used + 1)
      omega

theorem tcpReadLoopAux_length_le (reads : Nat → ReadOutcome)
    (hchunk : ∀ i chunk, reads i = ReadOutcome.ok chunk → chunk.length ≤ 4096) :
    ∀ (fuel i : Nat) (acc : List Nat) (used : Nat),
      acc.length < 4096 →
      (tcpReadLoopAux reads i fuel acc used).1.length ≤ 8191 := by
  intro fuel
  induction fuel with
  | zero => intro i acc used hacc; simp [tcpReadLoopAux]; omega
  | succ n ih =>
    intro i acc used hacc
    cases h : reads i with
    | ok chunk =>
      have hclen : chunk.length ≤ 4096 := hchunk i chunk h
      cases hne : chunk.isEmpty with
      | true =>
        rw [tcpReadLoopAux_step_empty reads i n acc used chunk h hne]
        simpa using Nat.le_of_lt (Nat.lt_of_lt_of_le hacc (by omega))
      | false =>
        by_cases hlen : 4096 ≤ (acc ++ chunk).length
        · rw [tcpReadLoopAux_step_full reads i n acc used chunk h hne hlen]
          simp only [List.length_append]
          omega
        · rw [tcpReadLoopAux_step_more reads i n acc used chunk h hne hlen]
          refine ih (i + 1) (acc ++ chunk) (used + 1) ?_
          rw [List.length_append] at hlen ⊢
          omega
    | closed =>
      rw [tcpReadLoopAux_step_closed reads i n acc used h]
      simpa using Nat.le_of_lt (Nat.lt_of_lt_of_le hacc (by omega))
    | failed =>
      rw [tcpReadLoopAux_step_failed reads i n acc used h]
      exact ih (i + 1) acc (used + 1) hacc

theorem head?_dropWhile_zero :
    ∀ (l : List Nat) (b : Nat),
      (l.dropWhile (fun x => x = 0)).head? = some b → b ≠ 0 := by
  intro l
  induction l with
  | nil => intro b h; simp [List.dropWhile] at h
  | cons x xs ih =>
    intro b h
    by_cases hx : x = 0
    · rw [List.dropWhile_cons] at h
      simp only [hx] at h
      simp at h
      exact ih b h
    · rw [List.dropWhile_cons] at h
      simp only [decide_eq_true_eq] at h
      rw [if_neg hx] at h
      simp at h
      omega

theorem trimTrailingNulls_getLast (bs : List Nat) (b : Nat)
    (h : (trimTrailingNulls bs).getLast? = some b) : b ≠ 0 := by
  unfold trimTrailingNulls at h
  rw [List.getLast?_reverse] at h
  exact head?_dropWhile_zero _ b h

/-- C1: for every peer behavior the poll-gated read loop of
`tcp_send_message` performs at most 20 poll-read cycles and terminates
(`tcpReadLoopAux` is total); a per-operation read failure does not end
the loop — it merely consumes one bounded cycle; the function returns
the accumulated bytes with trailing NUL bytes trimmed (so the result
never ends in a `0` byte). -/
theorem tcp_send_message_poll_loop_bounded (reads : Nat → ReadOutcome) :
    (tcp_send_message_read reads).2 ≤ 20 ∧
    (∀ (i fuel : Nat) (acc : List Nat) (used : Nat),
      reads i = ReadOutcome.failed →
      tcpReadLoopAux reads i (fuel + 1) acc used =
        tcpReadLoopAux reads (i + 1) fuel acc (used + 1)) ∧
    tcp_send_message_result reads =
      trimTrailingNulls (tcp_send_message_read reads).1 ∧
    (∀ b, (tcp_send_message_result reads).getLast? = some b → b ≠ 0) := by
  refine ⟨?_, ?_, rfl, ?_⟩
  · have := tcpReadLoopAux_cycles_le reads 20 0 [] 0
    simpa [tcp_send_message_read] using this
  · intro i fuel acc used h
    exact tcpReadLoopAux_step_failed reads i fuel acc used h
  · intro b h
    exact trimTrailingNulls_getLast _ b h

theorem tcp_send_message_poll_loop_bounded_witness :
    (tcp_send_message_read (fun _ => ReadOutcome.failed)).2 ≤ 20 ∧
    tcpReadLoopAux (fun _ => ReadOutcome.failed) 0 20 [] 0 =
      tcpReadLoopAux (fun _ => ReadOutcome.failed) 1 19 [] 1 ∧
    (tcp_send_message_result (fun _ => ReadOutcome.failed)).getLast? ≠ some 0 := by
  refine ⟨(tcp_send_message_poll_loop_bounded (fun _ => ReadOutcome.failed)).1,
    (tcp_send_message_poll_loop_bounded
      (fun _ => ReadOutcome.failed)).2.1 0 19 [] 0 rfl, ?_⟩
  intro h
  exact (tcp_send_message_poll_loop_bounded
    (fun _ => ReadOutcome.failed)).2.2.2 0 h rfl

/-- C5 fails as stated: the cap at src/lib.rs:366 is tested only after a
whole chunk has been appended (`body.append(&mut chunk); if body.len() >=
4096 { break; }`), so the buffer can pass 4096 bytes before the loop
notices.  Concretely, a 1-byte first chunk (1 < 4096, loop continues)
followed by a full 4096-byte second chunk — both within the 4 KiB bound
of the `read(&input, 4 * 1024)` call at src/lib.rs:362 — leaves 4097
bytes in the buffer, refuting "the buffer never holds more than 4096
bytes". -/
theorem tcp_send_message_buffer_exceeds_4096 :
    4096 <
      ((tcpReadLoopAux
        (fun i => if i = 0 then ReadOutcome.ok [65]
          else ReadOutcome.ok (List.replicate 4096 66)) 0 20 [] 0).1).length := by
  rw [show (20 : Nat) = 19 + 1 from rfl,
    tcpReadLoopAux_step_more _ 0 19 [] 0 [65] rfl rfl (by decide)]
  rw [show (19 : Nat) = 18 + 1 from rfl,
    tcpReadLoopAux_step_full _ 1 18 ([] ++ [65]) 1 (List.replicate 4096 66) rfl rfl
      (by rw [List.length_append, List.length_replicate]; decide)]
  show (4096 : Nat) < (([] ++ [65] : List Nat) ++ List.replicate 4096 66).length
  rw [List.length_append, List.length_replicate]
  decide

/-- C5 amended: the loop does stop early as soon as the accumulated
length reaches 4096 — the iteration whose append crosses the threshold
returns immediately, performing no further reads (second conjunct, the
exact step equation of the loop) — so the buffer holds fewer than 4096
bytes before every read; since each read returns at most 4096 bytes
(the `4 * 1024` read bound of src/lib.rs:362), the buffer is capped at
4095 + 4096 = 8191 bytes rather than the claimed 4096 (first
conjunct). -/
theorem tcp_send_message_byte_cap (reads : Nat → ReadOutcome)
    (hchunk : ∀ i chunk, reads i = ReadOutcome.ok chunk → chunk.length ≤ 4096) :
    (tcp_send_message_read reads).1.length ≤ 8191 ∧
    (∀ (i fuel : Nat) (acc : List Nat) (used : Nat) (chunk : List Nat),
      reads i = ReadOutcome.ok chunk → chunk.isEmpty = false →
      4096 ≤ (acc ++ chunk).length →
      tcpReadLoopAux reads i (fuel + 1) acc used = (acc ++ chunk, used + 1)) := by
  refine ⟨?_, ?_⟩
  · exact tcpReadLoopAux_length_le reads hchunk 20 0 [] 0 (by simp)
  · intro i fuel acc used chunk h hne hlen
    exact tcpReadLoopAux_step_full reads i fuel acc used chunk h hne hlen

theorem tcp_send_message_byte_cap_witness :
    (tcp_send_message_read (fun _ => ReadOutcome.ok [65])).1.length ≤ 8191 := by
  refine (tcp_send_message_byte_cap (fun _ => ReadOutcome.ok [65]) ?_).1
  intro i chunk h
  cases h
  decide

/-! ### Lemmas about the bulk read loop -/

theorem bulkReadLoop_cons_ok (o : List Nat) (rest : List ReadOutcome)
    (acc : List Nat) (hne : o.isEmpty = false) :
    bulkReadLoop (ReadOutcome.ok o :: rest) acc = bulkReadLoop rest (acc ++ o) := by
  simp only [bulkReadLoop]
  rw [if_neg (by simp [hne])]

theorem bulkReadLoop_append_ok :
    ∀ (chunks : List (List Nat)) (rest : List ReadOutcome) (acc : List Nat),
      (∀ c ∈ chunks, c ≠ []) →
      bulkReadLoop (chunks.map ReadOutcome.ok ++ rest) acc =
        bulkReadLoop rest (acc ++ chunks.flatten) := by
  intro chunks
  induction chunks with
  | nil => intro rest acc _; simp
  | cons c cs ih =>
    intro rest acc h
    have hc : c ≠ [] := h c (by simp)
    have hcs : ∀ x ∈ cs, x ≠ [] := fun x hx => h x (by simp [hx])
    have hce : c.isEmpty = false := by
      cases c with
      | nil => exact absurd rfl hc
      | cons _ _ => rfl
    calc bulkReadLoop ((c :: cs).map ReadOutcome.ok ++ rest) acc
        = bulkReadLoop (ReadOutcome.ok c :: (cs.map ReadOutcome.ok ++ rest)) acc := by
          simp
      _ = bulkReadLoop (cs.map ReadOutcome.ok ++ rest) (acc ++ c) :=
          bulkReadLoop_cons_ok c _ acc hce
      _ = bulkReadLoop rest ((acc ++ c) ++ cs.flatten) := ih rest (acc ++ c) hcs
      _ = bulkReadLoop rest (acc ++ (c :: cs).flatten) := by
          simp [List.append_assoc]

theorem bulkReadLoop_terminal (t : ReadOutcome) (post : List ReadOutcome)
    (acc : List Nat)
    (ht : t = ReadOutcome.ok [] ∨ t = ReadOutcome.closed ∨ t = ReadOutcome.failed) :
    bulkReadLoop (t :: post) acc = acc := by
  rcases ht with h | h | h <;> subst h <;> simp [bulkReadLoop]

/-- C2: for every trace of read outcomes made of nonempty successful
chunks followed by a first terminal outcome (empty read, stream-closed,
or any other read error) and arbitrary subsequent behavior, the bulk
read loop stops at that terminal outcome — it never retries past an
error — and `tcp_get_host_port`'s read phase returns the bytes read so
far, in order, as a success rather than propagating the error. -/
theorem bulk_read_loop_stops_at_terminal
    (chunks : List (List Nat)) (t : ReadOutcome) (post : List ReadOutcome)
    (hne : ∀ c ∈ chunks, c ≠ [])
    (ht : t = ReadOutcome.ok [] ∨ t = ReadOutcome.closed ∨ t = ReadOutcome.failed) :
    bulkReadLoop (chunks.map ReadOutcome.ok ++ t :: post) [] = chunks.flatten ∧
    tcp_get_host_port_read (chunks.map ReadOutcome.ok ++ t :: post) =
      Except.ok chunks.flatten := by
  have hloop :
      bulkReadLoop (chunks.map ReadOutcome.ok ++ t :: post) [] = chunks.flatten := by
    rw [bulkReadLoop_append_ok chunks (t :: post) [] hne,
      bulkReadLoop_terminal t post _ ht]
    simp
  exact ⟨hloop, by rw [tcp_get_host_port_read, hloop]⟩

theorem bulk_read_loop_stops_at_terminal_witness :
    bulkReadLoop
      ([[1, 2], [3]].map ReadOutcome.ok ++ ReadOutcome.failed :: [ReadOutcome.ok [9]])
      [] = [1, 2, 3] ∧
    tcp_get_host_port_read
      ([[1, 2], [3]].map ReadOutcome.ok ++ ReadOutcome.failed :: [ReadOutcome.ok [9]]) =
      Except.ok [1, 2, 3] :=
  bulk_read_loop_stops_at_terminal [[1, 2], [3]] ReadOutcome.failed [ReadOutcome.ok [9]]
    (by decide) (by simp)

/-! ### Lemmas about IPv4 literal parsing -/

/-- Following the claim's wording: the numeric value of a string of
decimal digits. -/
def specOctetValue (p : List Char) : Nat :=
  p.foldl (fun a c => a * 10 + (c.toNat - 48)) 0

/-- Following the claim's wording: an octet of a dotted-quad, i.e. a
nonempty string of decimal digits denoting a number in 0–255. -/
def specDecimalOctet (p : List Char) : Prop :=
  p ≠ [] ∧ (∀ c ∈ p, c.isDigit) ∧ specOctetValue p ≤ 255

instance (p : List Char) : Decidable (specDecimalOctet p) := by
  unfold specDecimalOctet
  infer_instance

/-- The dotted-quad hostname `p1.p2.p3.p4`. -/
def dottedQuad (p1 p2 p3 p4 : List Char) : List Char :=
  p1 ++ '.' :: (p2 ++ '.' :: (p3 ++ '.' :: p4))

theorem stripPlusSign_cons_ne (c : Char) (cs : List Char) (hc : c ≠ '+') :
    stripPlusSign (c :: cs) = c :: cs := by
  unfold stripPlusSign
  split
  · next heq =>
    injection heq with h1 _
    exact absurd h1 hc
  · rfl

theorem isDigit_ne_dot (c : Char) (h : c.isDigit) : c ≠ '.' := by
  intro he
  subst he
  exact absurd h (by decide)

theorem parseU8_of_decimal (p : List Char) (h : specDecimalOctet p) :
    parseU8 p = some (specOctetValue p) := by
  obtain ⟨hne, hd, hv⟩ := h
  cases p with
  | nil => exact absurd rfl hne
  | cons c cs =>
    have hcd : c.isDigit := hd c (by simp)
    have hc : c ≠ '+' := by
      intro he
      subst he
      exact absurd hcd (by decide)
    unfold parseU8
    rw [stripPlusSign_cons_ne c cs hc]
    rw [if_neg (by simp), if_pos (by simp only [List.all_eq_true, decide_eq_true_eq]; exact hd)]
    have hv2 : List.foldl (fun a c => a * 10 + (c.toNat - 48)) 0 (c :: cs) ≤ 255 := hv
    simp only []
    rw [if_pos hv2]
    rfl

theorem splitDots_no_dot :
    ∀ (p : List Char), (∀ c ∈ p, c ≠ '.') → splitDots p = [p] := by
  intro p
  induction p with
  | nil => intro _; rfl
  | cons c cs ih =>
    intro h
    have hc : c ≠ '.' := h c (by simp)
    have hcs : ∀ x ∈ cs, x ≠ '.' := fun x hx => h x (by simp [hx])
    conv_lhs => unfold splitDots
    rw [if_neg hc, ih hcs]

theorem splitDots_append :
    ∀ (p rest : List Char), (∀ c ∈ p, c ≠ '.') →
      splitDots (p ++ '.' :: rest) = p :: splitDots rest := by
  intro p
  induction p with
  | nil =>
    intro rest _
    show splitDots ('.' :: rest) = [] :: splitDots rest
    conv_lhs => unfold splitDots
    rw [if_pos rfl]
  | cons c cs ih =>
    intro rest h
    have hc : c ≠ '.' := h c (by simp)
    have hcs : ∀ x ∈ cs, x ≠ '.' := fun x hx => h x (by simp [hx])
    show splitDots (c :: (cs ++ '.' :: rest)) = (c :: cs) :: splitDots rest
    conv_lhs => unfold splitDots
    rw [if_neg hc, ih rest hcs]

theorem splitDots_quad (p1 p2 p3 p4 : List Char)
    (h1 : ∀ c ∈ p1, c ≠ '.') (h2 : ∀ c ∈ p2, c ≠ '.')
    (h3 : ∀ c ∈ p3, c ≠ '.') (h4 : ∀ c ∈ p4, c ≠ '.') :
    splitDots (dottedQuad p1 p2 p3 p4) = [p1, p2, p3, p4] := by
  unfold dottedQuad
  rw [splitDots_append p1 _ h1, splitDots_append p2 _ h2,
    splitDots_append p3 _ h3, splitDots_no_dot p4 h4]

/-- C3 fails as stated: the hostname `+1.2.3.4` has a non-numeric first
octet (`+1` contains the non-digit `'+'`, since Rust's `u8` parser
accepts an optional leading sign), yet `parse_ipv4` accepts it instead
of declining, so resolution would not be attempted for it. -/
theorem parse_ipv4_accepts_plus_octet :
    parse_ipv4 (("+1.2.3.4").data) = some (1, 2, 3, 4) ∧
    ¬ (∀ c ∈ ("+1").data, c.isDigit) := by
  constructor
  · decide
  · decide

/-- C3 amended: digit-only dotted quads with octets in 0–255 parse to
their address, skipping DNS; a hostname with fewer or more than four
dot-separated fields, or with any octet that Rust's `u8` parser rejects
(out-of-range, or non-numeric after an optional leading `'+'`), yields
`none`, and then resolution is attempted. -/
theorem parse_ipv4_spec (dns : List Char → Except (List Char) IpAddress) :
    (∀ p1 p2 p3 p4 : List Char,
      specDecimalOctet p1 → specDecimalOctet p2 →
      specDecimalOctet p3 → specDecimalOctet p4 →
      parse_ipv4 (dottedQuad p1 p2 p3 p4) =
        some (specOctetValue p1, specOctetValue p2,
          specOctetValue p3, specOctetValue p4) ∧
      resolveHost dns (dottedQuad p1 p2 p3 p4) =
        (Except.ok (IpAddress.ipv4 (specOctetValue p1, specOctetValue p2,
          specOctetValue p3, specOctetValue p4)), false)) ∧
    (∀ s : List Char, (splitDots s).length ≠ 4 → parse_ipv4 s = none) ∧
    (∀ p1 p2 p3 p4 : List Char,
      (∀ c ∈ p1, c ≠ '.') → (∀ c ∈ p2, c ≠ '.') →
      (∀ c ∈ p3, c ≠ '.') → (∀ c ∈ p4, c ≠ '.') →
      (parseU8 p1 = none ∨ parseU8 p2 = none ∨
        parseU8 p3 = none ∨ parseU8 p4 = none) →
      parse_ipv4 (dottedQuad p1 p2 p3 p4) = none) ∧
    (∀ host : List Char, parse_ipv4 host = none →
      (resolveHost dns host).2 = true) := by
  refine ⟨?_, ?_, ?_, ?_⟩
  · intro p1 p2 p3 p4 h1 h2 h3 h4
    have d1 : ∀ c ∈ p1, c ≠ '.' := fun c hc => isDigit_ne_dot c (h1.2.1 c hc)
    have d2 : ∀ c ∈ p2, c ≠ '.' := fun c hc => isDigit_ne_dot c (h2.2.1 c hc)
    have d3 : ∀ c ∈ p3, c ≠ '.' := fun c hc => isDigit_ne_dot c (h3.2.1 c hc)
    have d4 : ∀ c ∈ p4, c ≠ '.' := fun c hc => isDigit_ne_dot c (h4.2.1 c hc)
    have hp : parse_ipv4 (dottedQuad p1 p2 p3 p4) =
        some (specOctetValue p1, specOctetValue p2,
          specOctetValue p3, specOctetValue p4) := by
      simp only [parse_ipv4, splitDots_quad p1 p2 p3 p4 d1 d2 d3 d4,
        parseU8_of_decimal p1 h1, parseU8_of_decimal p2 h2,
        parseU8_of_decimal p3 h3, parseU8_of_decimal p4 h4]
    refine ⟨hp, ?_⟩
    simp only [resolveHost, hp]
  · intro s h
    rcases hsp : splitDots s with _ | ⟨p1, _ | ⟨p2, _ | ⟨p3, _ | ⟨p4, _ | ⟨p5, tl⟩⟩⟩⟩⟩
    · simp only [parse_ipv4, hsp]
    · simp only [parse_ipv4, hsp]
    · simp only [parse_ipv4, hsp]
    · simp only [parse_ipv4, hsp]
    · exact absurd (by rw [hsp]; rfl) h
    · simp only [parse_ipv4, hsp]
  · intro p1 p2 p3 p4 d1 d2 d3 d4 hnone
    simp only [parse_ipv4, splitDots_quad p1 p2 p3 p4 d1 d2 d3 d4]
    rcases hnone with h | h | h | h <;> rw [h] <;>
      cases parseU8 p1 <;> cases parseU8 p2 <;> cases parseU8 p3 <;>
      cases parseU8 p4 <;> rfl
  · intro host h
    simp only [resolveHost, h]
    cases hd : dns host with
    | ok ip => rfl
    | error e =>
      split <;> first
        | rfl
        | (split <;> rfl)

theorem parse_ipv4_spec_witness :
    parse_ipv4 (dottedQuad ("1").data ("2").data ("3").data ("255").data) =
      some (1, 2, 3, 255) ∧
    parse_ipv4 (("1.2.3").data) = none := by
  have h := parse_ipv4_spec (fun _ => Except.error [])
  constructor
  · exact (h.1 ("1").data ("2").data ("3").data ("255").data
      (by decide) (by decide) (by decide) (by decide)).1
  · exact h.2.1 (("1.2.3").data) (by decide)

/-! ### HTTP status classification -/

/-- C4: every response object obtained by the HTTP clients is classified
by status — a 2xx status succeeds with the drained body text, and any
other status produces an error string that carries both the numeric
status and the body text that accompanied it (the error body is kept,
not discarded). -/
theorem http_status_classified (status : Nat) (bodyText : List Char) :
    (200 ≤ status → status < 300 →
      classifyPostJson status bodyText = Except.ok bodyText ∧
      classifyGetText status bodyText = Except.ok bodyText) ∧
    (¬ (200 ≤ status ∧ status < 300) →
      classifyPostJson status bodyText =
        Except.error (("OpenAI HTTP ").data ++ (Nat.repr status).data ++
          (": ").data ++ bodyText) ∧
      classifyGetText status bodyText =
        Except.error (("HTTP ").data ++ (Nat.repr status).data ++
          (": ").data ++ bodyText) ∧
      (Nat.repr status).data <:+:
        (("OpenAI HTTP ").data ++ (Nat.repr status).data ++ (": ").data ++ bodyText) ∧
      bodyText <:+:
        (("OpenAI HTTP ").data ++ (Nat.repr status).data ++ (": ").data ++ bodyText)) := by
  constructor
  · intro h1 h2
    constructor <;> simp [classifyPostJson, classifyGetText, h1, h2]
  · intro h
    refine ⟨?_, ?_, ?_, ?_⟩
    · simp [classifyPostJson, h]
    · simp [classifyGetText, h]
    · exact ⟨("OpenAI HTTP ").data, (": ").data ++ bodyText, by simp⟩
    · exact ⟨("OpenAI HTTP ").data ++ (Nat.repr status).data ++ (": ").data, [],
        by simp⟩

theorem http_status_classified_witness :
    ¬ (200 ≤ 404 ∧ 404 < 300) ∧
    classifyPostJson 404 (("\x7b\"error\":\"x\"\x7d").data) =
      Except.error (("OpenAI HTTP ").data ++ (Nat.repr 404).data ++
        (": ").data ++ (("\x7b\"error\":\"x\"\x7d").data)) ∧
    classifyGetText 200 (("ok body").data) = Except.ok (("ok body").data) :=
  ⟨by decide,
   ((http_status_classified 404 (("\x7b\"error\":\"x\"\x7d").data)).2 (by decide)).1,
   ((http_status_classified 200 (("ok body").data)).1 (by decide) (by decide)).2⟩

/-! ### The Slack command route -/

/-- C6: `/slack/command` answers `"ack"` unconditionally; the callback
POST is fired exactly when the form's `response_url` is nonempty, and
the response does not depend on the callback's (or the AI call's)
outcome — both oracles are universally quantified. -/
theorem slack_command_always_ack
    (openai : List Char → Except (List Char) (List Char))
    (post : List Char → List Char → Except (List Char) Unit)
    (bodyText : List Nat) :
    (handleSlackCommand openai post bodyText).response = "ack" ∧
    ((mapGet (parse_query_params bodyText) (strBytes "response_url")).getD [] = [] →
      handleSlackCommand openai post bodyText =
        { response := "ack", didPost := false }) ∧
    ((mapGet (parse_query_params bodyText) (strBytes "response_url")).getD [] ≠ [] →
      handleSlackCommand openai post bodyText =
        { response := "ack", didPost := true }) := by
  by_cases hru :
      (mapGet (parse_query_params bodyText) (strBytes "response_url")).getD [] = []
  · have hall : handleSlackCommand openai post bodyText =
        { response := "ack", didPost := false } := by
      simp [handleSlackCommand, hru, bytesToChars]
    exact ⟨by rw [hall], fun _ => hall, fun hne => absurd hru hne⟩
  · obtain ⟨x, xs, hx⟩ : ∃ x xs,
        (mapGet (parse_query_params bodyText) (strBytes "response_url")).getD [] =
          x :: xs := by
      cases hcase :
          (mapGet (parse_query_params bodyText) (strBytes "response_url")).getD [] with
      | nil => exact absurd hcase hru
      | cons x xs => exact ⟨x, xs, rfl⟩
    have hall : handleSlackCommand openai post bodyText =
        { response := "ack", didPost := true } := by
      simp [handleSlackCommand, hx, bytesToChars]
    exact ⟨by rw [hall], fun he => absurd he hru, fun _ => hall⟩

theorem slack_command_always_ack_witness :
    (mapGet (parse_query_params (strBytes "text=hello&response_url="))
      (strBytes "response_url")).getD [] = [] ∧
    handleSlackCommand (fun _ => Except.error (("x").data))
      (fun _ _ => Except.ok ()) (strBytes "text=hello&response_url=") =
      { response := "ack", didPost := false } :=
  ⟨by decide,
   (slack_command_always_ack (fun _ => Except.error (("x").data))
      (fun _ _ => Except.ok ()) (strBytes "text=hello&response_url=")).2.1
     (by decide)⟩

/-! ### Unsupported-scheme rejection -/

theorem stripPrefixL_eq_none :
    ∀ (p s : List Char), ¬ p <+: s → stripPrefixL p s = none := by
  intro p
  induction p with
  | nil => intro s h; exact absurd List.nil_prefix h
  | cons c cs ih =>
    intro s h
    cases s with
    | nil => rfl
    | cons b bs =>
      show (if b = c then stripPrefixL cs bs else none) = none
      by_cases hb : b = c
      · subst hb
        rw [if_pos rfl]
        refine ih bs fun hp => h ?_
        exact List.cons_prefix_cons.mpr ⟨rfl, hp⟩
      · rw [if_neg hb]

/-- C7: a URL that begins with neither `http://` nor `https://` makes
all three HTTP client entry points fail with the `unsupported scheme`
error before any request is dispatched, and the `/debug/httpget` route
invoked with `url=not-a-url` renders a failure narrative containing
`unsupported scheme`. -/
theorem unsupported_scheme_rejected :
    (∀ url : List Char,
      ¬ (("http://").data <+: url) → ¬ (("https://").data <+: url) →
      parseUrl url = Except.error (("unsupported scheme").data) ∧
      (∀ fx, http_get_text fx url =
        (Except.error (("unsupported scheme").data), false)) ∧
      (∀ fx jsonBody apiKey, http_post_json fx url jsonBody apiKey =
        (Except.error (("unsupported scheme").data), false)) ∧
      (∀ fx body ct, http_post_text fx url body ct =
        (Except.error (("unsupported scheme").data), false))) ∧
    (∀ fx, debugHttpGetRoute fx (some (strBytes "url=not-a-url")) =
        ("GET not-a-url failed: unsupported scheme").data ∧
      ("unsupported scheme").data <:+:
        debugHttpGetRoute fx (some (strBytes "url=not-a-url"))) := by
  constructor
  · intro url hh hhs
    have hp : parseUrl url = Except.error (("unsupported scheme").data) := by
      simp only [parseUrl, stripPrefixL_eq_none _ _ hhs, stripPrefixL_eq_none _ _ hh]
    refine ⟨hp, ?_, ?_, ?_⟩
    · intro fx; simp only [http_get_text, hp]
    · intro fx jsonBody apiKey; simp only [http_post_json, hp]
    · intro fx body ct; simp only [http_post_text, hp]
  · intro fx
    have he : debugHttpGetRoute fx (some (strBytes "url=not-a-url")) =
        ("GET not-a-url failed: unsupported scheme").data := rfl
    exact ⟨he, by rw [he]; decide⟩

theorem unsupported_scheme_rejected_witness :
    ¬ (("http://").data <+: ("not-a-url").data) ∧
    ¬ (("https://").data <+: ("not-a-url").data) ∧
    parseUrl (("not-a-url").data) = Except.error (("unsupported scheme").data) :=
  ⟨by decide, by decide,
   ((unsupported_scheme_rejected).1 (("not-a-url").data)
      (by decide) (by decide)).1⟩

/-! ### Percent-decoding round trip -/

theorem percentDecode_no_escape :
    ∀ (s : List Nat), (∀ b ∈ s, b ≠ 37) → percentDecode s = s := by
  intro s
  induction s using percentDecode.induct with
  | case1 h1 h2 rest a b _ _ _ =>
    intro h
    exact absurd rfl (h 37 (by simp))
  | case2 h1 h2 rest _ _ =>
    intro h
    exact absurd rfl (h 37 (by simp))
  | case3 b rest hshape ih =>
    intro h
    have hb : b ≠ 37 := h b (by simp)
    have hrest : ∀ x ∈ rest, x ≠ 37 := fun x hx => h x (by simp [hx])
    rw [percentDecode.eq_def]
    split
    · next heq =>
      injection heq with hb' _
      exact absurd hb' hb
    · next b' rest' heq =>
      injection heq with hb' hrest'
      subst hb'
      subst hrest'
      rw [ih hrest]
    · next heq =>
      simp at heq
  | case4 =>
    intro _
    rfl

theorem splitOnByte_no_sep (sep : Nat) :
    ∀ (l : List Nat), (∀ b ∈ l, b ≠ sep) → splitOnByte sep l = [l] := by
  intro l
  induction l with
  | nil => intro _; rfl
  | cons b rest ih =>
    intro h
    have hb : b ≠ sep := h b (by simp)
    have hrest : ∀ x ∈ rest, x ≠ sep := fun x hx => h x (by simp [hx])
    conv_lhs => unfold splitOnByte
    rw [if_neg hb, ih hrest]

theorem splitOnceByte_append (sep : Nat) :
    ∀ (k v : List Nat), (∀ b ∈ k, b ≠ sep) →
      splitOnceByte sep (k ++ sep :: v) = (k, v) := by
  intro k
  induction k with
  | nil =>
    intro v _
    show splitOnceByte sep (sep :: v) = ([], v)
    unfold splitOnceByte
    rw [if_pos rfl]
  | cons b bs ih =>
    intro v h
    have hb : b ≠ sep := h b (by simp)
    have hbs : ∀ x ∈ bs, x ≠ sep := fun x hx => h x (by simp [hx])
    show splitOnceByte sep (b :: (bs ++ sep :: v)) = (b :: bs, v)
    conv_lhs => unfold splitOnceByte
    rw [if_neg hb, ih v hbs]

/-- C8: on already-decoded ASCII text with no `%`, `&` or `=` byte,
percent-decoding is the identity, and parsing the text as the value of a
query pair and reading it back through the parsed map reconstructs the
same bytes. -/
theorem percent_roundtrip_clean (s : List Nat)
    (h : ∀ b ∈ s, b < 128 ∧ b ≠ 37 ∧ b ≠ 38 ∧ b ≠ 61) :
    percentDecode s = s ∧
    mapGet (parse_query_params (strBytes "k" ++ 61 :: s)) (strBytes "k") =
      some s := by
  have hps : percentDecode s = s :=
    percentDecode_no_escape s fun b hb => (h b hb).2.1
  refine ⟨hps, ?_⟩
  have hsplit : splitOnByte 38 (strBytes "k" ++ 61 :: s) =
      [strBytes "k" ++ 61 :: s] := by
    refine splitOnByte_no_sep 38 _ ?_
    intro b hb
    rcases List.mem_append.mp hb with hk | hv
    · simp [strBytes] at hk
      omega
    · rcases List.mem_cons.mp hv with rfl | hs
      · omega
      · exact (h b hs).2.2.1
  have honce : splitOnceByte 61 (strBytes "k" ++ 61 :: s) = (strBytes "k", s) := by
    refine splitOnceByte_append 61 _ s ?_
    intro b hb
    simp [strBytes] at hb
    omega
  simp only [parse_query_params, hsplit, List.foldl_cons, List.foldl_nil]
  rw [if_neg (by simp)]
  simp only [honce, hps]
  rw [if_neg (by decide)]
  simp [mapInsert, mapGet, List.find?, hps,
    show percentDecode (strBytes "k") = strBytes "k" from rfl]

theorem percent_roundtrip_clean_witness :
    percentDecode (strBytes "hello") = strBytes "hello" ∧
    mapGet (parse_query_params (strBytes "k" ++ 61 :: strBytes "hello"))
      (strBytes "k") = some (strBytes "hello") :=
  percent_roundtrip_clean (strBytes "hello") (by decide)

/-! ### Credential excerpt of the /debug/openai route -/

/-- C9 fails as stated: for a configured key of at most 10 characters
the excerpt branch returns the whole key, so the full credential appears
verbatim in the `/debug/openai` narrative. -/
theorem debug_openai_short_key_shown_in_full :
    ("shortkey").data.length ≤ 10 ∧
    keyExcerpt (("shortkey").data) = ("shortkey").data ∧
    ("shortkey").data <:+:
      debugOpenaiNarrative (("gpt-4o-mini").data) (("shortkey").data)
        (Except.error (("e").data)) := by
  refine ⟨by decide, by decide, ?_⟩
  exact ⟨("OpenAI API Test Failed:\nModel: gpt-4o-mini\nAPI Key: ").data,
    ("...\nError: e").data, by decide⟩

/-- C9 amended: the narrative embeds the credential only through
`keyExcerpt`; for keys longer than 10 characters the excerpt is exactly
the first 10 characters — a proper, non-full excerpt, different from the
key — while a key of at most 10 characters is embedded in full. -/
theorem debug_openai_key_truncated (apiKey : List Char) (h : 10 < apiKey.length) :
    keyExcerpt apiKey = apiKey.take 10 ∧
    (keyExcerpt apiKey).length = 10 ∧
    keyExcerpt apiKey ≠ apiKey := by
  have he : keyExcerpt apiKey = apiKey.take 10 := by
    unfold keyExcerpt
    rw [if_pos h]
  have hl : (keyExcerpt apiKey).length = 10 := by
    rw [he, List.length_take]
    omega
  refine ⟨he, hl, ?_⟩
  intro heq
  rw [heq] at hl
  omega

theorem debug_openai_key_truncated_witness :
    10 < ("sk-0123456789abc").data.length ∧
    keyExcerpt (("sk-0123456789abc").data) = ("sk-0123456789abc").data.take 10 ∧
    keyExcerpt (("sk-0123456789abc").data) ≠ ("sk-0123456789abc").data :=
  ⟨by decide,
   (debug_openai_key_truncated (("sk-0123456789abc").data) (by decide)).1,
   (debug_openai_key_truncated (("sk-0123456789abc").data) (by decide)).2.2⟩

/-! ### Environment-variable handling -/

/-- C10: a variable that is unset or set to the empty string is treated
identically: `get_env_var` yields `none`, `call_openai` fails with the
`OPENAI_API_KEY not set` error without dispatching the credential, and
the `/debug/openai` route displays the `MISSING` placeholder. -/
theorem env_empty_treated_missing :
    (∀ (env : String → Option String) (name : String),
      env name = none ∨ env name = some "" → get_env_var env name = none) ∧
    (∀ (env : String → Option String) (fx : String → String → Except String String)
      (userText : String),
      env "OPENAI_API_KEY" = none ∨ env "OPENAI_API_KEY" = some "" →
      call_openai env fx userText = (Except.error "OPENAI_API_KEY not set", false) ∧
      debugOpenaiApiKeyShown env = "MISSING") := by
  have hge : ∀ (env : String → Option String) (name : String),
      env name = none ∨ env name = some "" → get_env_var env name = none := by
    intro env name h
    rcases h with h | h
    · simp [get_env_var, h]
    · simp [get_env_var, h, Option.filter]
      decide
  refine ⟨hge, ?_⟩
  intro env fx userText h
  have hk := hge env "OPENAI_API_KEY" h
  constructor
  · simp [call_openai, hk]
    decide
  · simp [debugOpenaiApiKeyShown, hk]

theorem env_empty_treated_missing_witness :
    get_env_var (fun _ => some "") "OPENAI_API_KEY" = none ∧
    call_openai (fun _ => some "") (fun _ _ => Except.ok "r") "hi" =
      (Except.error "OPENAI_API_KEY not set", false) ∧
    debugOpenaiApiKeyShown (fun _ => some "") = "MISSING" :=
  ⟨(env_empty_treated_missing).1 (fun _ => some "") "OPENAI_API_KEY" (Or.inr rfl),
   ((env_empty_treated_missing).2 (fun _ => some "") (fun _ _ => Except.ok "r") "hi"
      (Or.inr rfl)).1,
   ((env_empty_treated_missing).2 (fun _ => some "") (fun _ _ => Except.ok "r") "hi"
      (Or.inr rfl)).2⟩

end AIAgent
